import Mathlib

/-!
A shallow embedding of the dumbbell-chart visual (`src/visual.ts`) and proofs
about it.  The visual's `update` method reads a tabular data view, coerces the
category and measure cells, derives three d3 scales (a linear value scale, a
point scale for categories and an ordinal colour scale) and appends seven
groups of SVG primitives; category labels are post-processed by the greedy
`wrap` routine.  Numbers are modelled as rationals together with an explicit
NaN value, mirroring the IEEE NaN-propagation that the code relies on.
-/

/-- A JavaScript number as used by the visual: NaN or a rational value.  The
arithmetic the visual performs never produces an infinity (the single division,
inside the linear scale, is guarded by d3's check that the divisor is
nonzero), so no infinity constructor is needed. -/
inductive JsNum where
  | nan : JsNum
  | num : ℚ → JsNum
deriving DecidableEq

/-- JS addition on the values arising in the visual: NaN propagates. -/
def jsAdd : JsNum → JsNum → JsNum
  | .num a, .num b => .num (a + b)
  | _, _ => .nan

/-- JS subtraction on the values arising in the visual: NaN propagates. -/
def jsSub : JsNum → JsNum → JsNum
  | .num a, .num b => .num (a - b)
  | _, _ => .nan

/-- `Math.max`: returns NaN when either argument is NaN. -/
def jsMax : JsNum → JsNum → JsNum
  | .num a, .num b => .num (max a b)
  | _, _ => .nan

/-- A raw measure cell supplied by the host.  `Number(·)` (visual.ts lines
45-46) yields the value itself for a numeric cell and NaN for a cell whose
numeric coercion fails (such as a non-numeric string); `nonNumeric` stands for
any such cell. -/
inductive Cell where
  | num : ℚ → Cell
  | nonNumeric : Cell
deriving DecidableEq

/-- The `Number(·)` coercion applied to a host cell. -/
def Cell.toNumber : Cell → JsNum
  | .num q => .num q
  | .nonNumeric => .nan

/-- The margin record of the visual (visual.ts line 12). -/
structure Margin where
  left : ℚ
  right : ℚ
  top : ℚ
  bottom : ℚ

/-- `this.margin = { left: 100, right: 30, top: 60, bottom: 30 }`. -/
def margin : Margin := ⟨100, 30, 60, 30⟩

/-- `this.circleRadius = 14`. -/
def circleRadius : ℚ := 14

/-- `this.strokeWidth = 2.5`. -/
def strokeWidth : ℚ := 5 / 2

/-- `this.colourPalette` (visual.ts lines 15-17). -/
def colourPalette : List String :=
  ["#0079EB", "#375071", "#A83DA4", "#4289B3", "#9B7003", "#293241", "#006560", "#4B195D"]

/-- One row of the extracted data (visual.ts lines 43-47): the stringified
category and the two coerced measure values. -/
structure DataPoint where
  Categories : String
  Value1 : JsNum
  Value2 : JsNum
deriving DecidableEq

/-- The viewport handed to `update` by the host. -/
structure Viewport where
  width : ℚ
  height : ℚ
deriving DecidableEq

/-- Worker for `text.split(/\s+/)` (visual.ts line 164): `cur` holds the
characters of the token being read (reversed) and `inWs` records whether the
previous character was part of a whitespace run.  The JS split on `/\s+/`
separates on maximal whitespace runs, producing an empty leading token when
the string starts with whitespace and an empty trailing token when it ends
with one. -/
def jsSplitWsAux : List Char → List Char → Bool → List String
  | [], cur, _ => [String.mk cur.reverse]
  | c :: rest, cur, inWs =>
    if c.isWhitespace then
      if inWs then jsSplitWsAux rest [] true
      else String.mk cur.reverse :: jsSplitWsAux rest [] true
    else jsSplitWsAux rest (c :: cur) false

/-- `text.split(/\s+/)` as used by `wrap` (visual.ts line 164). -/
def jsSplitWs (s : String) : List String := jsSplitWsAux s.data [] false

/-- `array.join(" ")` on a list of words (visual.ts lines 178 and 181). -/
def joinSp : List String → String
  | [] => ""
  | [w] => w
  | w :: rest => w ++ " " ++ joinSp rest

/-- One iteration of the `while ((word = words.pop()))` loop of `wrap`
(visual.ts lines 176-188), at the level of lines-as-word-lists: the state is
the list of committed lines together with the current line.  The new word is
tentatively appended; if the measured width of the tentative line exceeds the
limit, the current line is committed as it was (possibly empty, when the very
first word overflows) and a fresh line holding only the new word is started. -/
def wrapStep (measure : String → ℚ) (maxWidth : ℚ)
    (st : List (List String) × List String) (w : String) :
    List (List String) × List String :=
  let tentative := st.2 ++ [w]
  if maxWidth < measure (joinSp tentative) then (st.1 ++ [st.2], [w])
  else (st.1, tentative)

/-- The lines produced by the `wrap` loop from a list of words: the committed
lines followed by the final in-progress line (the text of the last tspan). -/
def wrapLines (measure : String → ℚ) (maxWidth : ℚ) (ws : List String) :
    List (List String) :=
  let st := ws.foldl (wrapStep measure maxWidth) ([], [])
  st.1 ++ [st.2]

/-- The words actually consumed by the `wrap` loop: since
`while ((word = words.pop()))` stops at the first falsy (empty) token, the
loop processes the split tokens, in order, only up to the first empty one. -/
def wrapWordsOf (text : String) : List String :=
  (jsSplitWs text).takeWhile (fun w => w ≠ "")

/-- The final text contents of the tspans produced by `wrap` (visual.ts lines
161-189) for a given text, width limit and text-measurement capability
(`getComputedTextLength`, abstracted as a function of the measured string). -/
def wrapFragments (text : String) (maxWidth : ℚ) (measure : String → ℚ) :
    List String :=
  (wrapLines measure maxWidth (wrapWordsOf text)).map joinSp

/-- One tspan appended by `wrap`: its `x` attribute, its `dy` attribute in em
units, and its text. -/
structure Tspan where
  x : ℚ
  dy : ℚ
  content : String
deriving DecidableEq

/-- The tspans of a wrapped label: the initial tspan (visual.ts lines 172-174)
has `x = 0` and `dy = 0em`; every tspan appended on overflow (lines 183-186)
has `x = 0` and `dy = 1.2em`. -/
def wrapTspans (frags : List String) : List Tspan :=
  match frags with
  | [] => []
  | f :: rest => ⟨0, 0, f⟩ :: rest.map fun g => ⟨0, 6 / 5, g⟩

/-- A resolved drawing primitive appended to the SVG surface by `update`. -/
inductive Primitive where
  | line (cls : String) (x1 x2 y1 y2 : JsNum) (opacity : Option ℚ)
      (strokeW : ℚ) (dash : Option String) (stroke : String)
  | circle (cls : String) (cx cy : JsNum) (r : ℚ) (fill stroke : String)
      (strokeW : ℚ)
  | textNum (cls : String) (x y : JsNum) (anchor fill : String)
      (fontSize : ℚ) (value : JsNum)
  | textWrapped (cls : String) (x y : JsNum) (anchor : String)
      (content : String) (tspans : List Tspan)
deriving DecidableEq

/-- `d3.max(data, accessor)`: folds over the values, ignoring NaN (a NaN fails
both the `max < value` and the `value >= value` test in d3's loop) and
returning `none` when no comparable value was seen. -/
def d3Max (l : List JsNum) : Option ℚ :=
  l.foldl (fun acc v =>
    match v with
    | .nan => acc
    | .num q =>
      match acc with
      | none => some q
      | some m => if m < q then some q else some m) none

/-- A d3 linear scale with domain `[0, hi]` and range `[r0, r1]`, without
clamping.  A NaN argument is rejected up front (d3 returns its `unknown`
value, undefined, which the arithmetic subsequently applied to the result
turns into NaN; the model uses NaN directly).  Otherwise d3's
`normalize(a, b)` maps through `(x - a) / (b - a)` when the domain is
nondegenerate, degrades to the constant `0.5` when `b - a = 0`, and to NaN
when the upper bound is undefined (which arises when `d3.max` returned no
value); the range interpolator is `r0 * (1 - t) + r1 * t`. -/
def scaleLinearFromZero (hi : Option ℚ) (r0 r1 : ℚ) : JsNum → JsNum :=
  fun v =>
    match v with
    | .nan => .nan
    | .num q =>
      match hi with
      | none => .nan
      | some m =>
        if m = 0 then .num (r0 * (1 - 1 / 2) + r1 * (1 / 2))
        else .num (r0 * (1 - q / m) + r1 * (q / m))

/-- Worker for d3's ordinal-domain construction, which skips values already
seen, keeping first occurrences. -/
def dedupFirstAux : List String → List String → List String
  | [], _ => []
  | c :: rest, seen =>
    if c ∈ seen then dedupFirstAux rest seen
    else c :: dedupFirstAux rest (c :: seen)

/-- The deduplicated domain of a d3 ordinal/point scale (first occurrences, in
input order). -/
def dedupFirst (l : List String) : List String := dedupFirstAux l []

/-- The position d3's point scale (padding 0, align 0.5) assigns to index `i`
of an `n`-element domain over the range `[r0, r1]`:
`step = (r1 - r0) / max 1 (n - 1)`, the start is shifted by half the leftover
space, and index `i` sits at `start + step * i`.  (d3 computes with the range
sorted ascending and reverses the resulting positions for a descending range;
because the step and the align shift are linear in the range endpoints, that
is extensionally the same as evaluating the formulas directly on `r0, r1`.) -/
def pointScalePos (n : ℕ) (r0 r1 : ℚ) (i : ℕ) : ℚ :=
  let step := (r1 - r0) / ((max 1 (n - 1) : ℕ) : ℚ)
  let start := r0 + (r1 - r0 - step * ((n - 1 : ℕ) : ℚ)) * (1 / 2)
  start + step * (i : ℚ)

/-- `Number(value1[i])` where `value1` is a measure column: an index past the
end of the column reads `undefined`, which coerces to NaN. -/
def numAt (l : List Cell) (i : ℕ) : JsNum :=
  match l[i]? with
  | some c => c.toNumber
  | none => .nan

/-- The row the extraction lambda (visual.ts lines 43-47) builds for index
`i`: `{Categories: String(c), Value1: Number(value1[i]), Value2:
Number(value2[i])}`.  Category cells are modelled as the strings `String(·)`
produces for them. -/
def pointAt (cats : List String) (v1 v2 : List Cell) (i : ℕ) : DataPoint :=
  ⟨cats.getD i "", numAt v1 i, numAt v2 i⟩

/-- The extracted rows (visual.ts lines 43-47): `categories.map(...)`, one row
per category cell. -/
def buildData (cats : List String) (v1 v2 : List Cell) : List DataPoint :=
  (List.range cats.length).map (pointAt cats v1 v2)

/-- `d3.max(data, d => Math.max(d.Value1, d.Value2))` (visual.ts line 51). -/
def d3MaxOf (data : List DataPoint) : Option ℚ :=
  d3Max (data.map fun d => jsMax d.Value1 d.Value2)

/-- The `xScale` of the render (visual.ts lines 50-52): linear, domain
`[0, d3.max(...)]`, range `[margin.left, width - margin.right]`. -/
def xScaleOf (data : List DataPoint) (width : ℚ) : JsNum → JsNum :=
  scaleLinearFromZero (d3MaxOf data) margin.left (width - margin.right)

/-- The domain of the `yScale` and of the colour scale: the category strings
of the data, first occurrences kept, in input order. -/
def yDomainOf (data : List DataPoint) : List String :=
  dedupFirst (data.map fun d => d.Categories)

/-- The `yScale` of the render (visual.ts lines 54-56): a point scale over the
category domain with range `[margin.top, height - margin.bottom]`.  d3 returns
`undefined` for a category outside the domain (modelled as NaN); this branch
is unreachable for the categories of the data themselves. -/
def yScaleOf (data : List DataPoint) (height : ℚ) (c : String) : JsNum :=
  let dom := yDomainOf data
  if c ∈ dom then
    .num (pointScalePos dom.length margin.top (height - margin.bottom) (dom.indexOf c))
  else .nan

/-- The `colourScale` of the render (visual.ts lines 58-60): ordinal, keyed by
category, range indices taken modulo the palette length. -/
def colourOf (data : List DataPoint) (c : String) : String :=
  let dom := yDomainOf data
  colourPalette.getD ((dom.indexOf c) % colourPalette.length) ""

/-- The dashed horizontal gridlines (visual.ts lines 62-75), one per row. -/
def horizontalGridlines (data : List DataPoint) (vp : Viewport) : List Primitive :=
  data.map fun d =>
    .line "horizontalGridlines" (.num margin.left)
      (jsSub (xScaleOf data vp.width d.Value1) (.num circleRadius))
      (yScaleOf data vp.height d.Categories) (yScaleOf data vp.height d.Categories)
      (some (9 / 10)) 1 (some "3 3") "#CACACA"

/-- The connector lines between the two values (visual.ts lines 77-88). -/
def linesV1V2 (data : List DataPoint) (vp : Viewport) : List Primitive :=
  data.map fun d =>
    .line "linesV1V2"
      (jsAdd (xScaleOf data vp.width d.Value1) (.num circleRadius))
      (jsSub (xScaleOf data vp.width d.Value2) (.num circleRadius))
      (yScaleOf data vp.height d.Categories) (yScaleOf data vp.height d.Categories)
      none strokeWidth none (colourOf data d.Categories)

/-- The `Value1` circles (visual.ts lines 90-101): white fill, coloured stroke. -/
def circles1 (data : List DataPoint) (vp : Viewport) : List Primitive :=
  data.map fun d =>
    .circle "circles1" (xScaleOf data vp.width d.Value1)
      (yScaleOf data vp.height d.Categories) circleRadius
      "white" (colourOf data d.Categories) strokeWidth

/-- The `Value2` circles (visual.ts lines 103-114): coloured fill and stroke. -/
def circles2 (data : List DataPoint) (vp : Viewport) : List Primitive :=
  data.map fun d =>
    .circle "circles2" (xScaleOf data vp.width d.Value2)
      (yScaleOf data vp.height d.Categories) circleRadius
      (colourOf data d.Categories) (colourOf data d.Categories) strokeWidth

/-- The `Value1` labels (visual.ts lines 116-129): centred at the `Value1`
circle, coloured text, font size `circleRadius - 2`. -/
def value1Labels (data : List DataPoint) (vp : Viewport) : List Primitive :=
  data.map fun d =>
    .textNum "value1Labels" (xScaleOf data vp.width d.Value1)
      (yScaleOf data vp.height d.Categories) "middle"
      (colourOf data d.Categories) (circleRadius - 2) d.Value1

/-- The `Value2` labels (visual.ts lines 131-144): centred at the `Value2`
circle, white text. -/
def value2Labels (data : List DataPoint) (vp : Viewport) : List Primitive :=
  data.map fun d =>
    .textNum "value2Labels" (xScaleOf data vp.width d.Value2)
      (yScaleOf data vp.height d.Categories) "middle"
      "white" (circleRadius - 2) d.Value2

/-- The category labels (visual.ts lines 146-157): right-aligned text at
`x = margin.left - 10`, then passed through `wrap` with a width limit of 100. -/
def categoryLabels (data : List DataPoint) (vp : Viewport)
    (measure : String → ℚ) : List Primitive :=
  data.map fun d =>
    .textWrapped "categoryLabels" (.num (margin.left - 10))
      (yScaleOf data vp.height d.Categories) "end" d.Categories
      (wrapTspans (wrapFragments d.Categories 100 measure))

/-- The primitives appended by the part of `update` after its guard (visual.ts
lines 38-157), in document order: the seven `selectAll` groups are appended
one group after another, each group holding one element per data row. -/
def renderData (cats : List String) (v1 v2 : List Cell) (vp : Viewport)
    (measure : String → ℚ) : List Primitive :=
  let data := buildData cats v1 v2
  horizontalGridlines data vp ++ linesV1V2 data vp ++ circles1 data vp
    ++ circles2 data vp ++ value1Labels data vp ++ value2Labels data vp
    ++ categoryLabels data vp measure

/-- The `categorical` member of a data view: an optional list of category
columns (each modelled by its stringified values) and an optional list of
measure columns. -/
structure Categorical where
  categories : Option (List (List String))
  values : Option (List (List Cell))

/-- A host data view, holding an optional `categorical` mapping. -/
structure DataView where
  categorical : Option Categorical

/-- The whole `update` call (visual.ts lines 23-158) as a function from the
host inputs to the primitives left on the (previously cleared) surface: the
guard on line 34 returns early — emitting nothing — when there is no data
view, no categorical mapping, no categories field, no values field, or fewer
than two measure columns; otherwise the first category column and the first
two measure columns drive the render.  The viewport is not inspected by the
guard.  `measure` abstracts the surface's text-measurement capability used by
`wrap`. -/
def updateModel (dataViews : List DataView) (vp : Viewport)
    (measure : String → ℚ) : List Primitive :=
  match dataViews.head? with
  | none => []
  | some dv =>
    match dv.categorical with
    | none => []
    | some cat =>
      match cat.categories, cat.values with
      | some catCols, some vals =>
        if vals.length < 2 then []
        else renderData (catCols.getD 0 []) (vals.getD 0 []) (vals.getD 1 []) vp measure
      | _, _ => []

/-- The inputs on which the guard of `update` (visual.ts line 34) returns
early, together with the empty-dataset case (an empty first category column),
on which the render body appends nothing.  The viewport takes no part in
this. -/
def degenerateInput (dvs : List DataView) : Prop :=
  match dvs.head? with
  | none => True
  | some dv =>
    match dv.categorical with
    | none => True
    | some cat =>
      match cat.categories, cat.values with
      | some catCols, some vals => vals.length < 2 ∨ catCols.getD 0 [] = []
      | _, _ => True

/-- The fixed-metrics measurement stub used by the spec's concrete wrap
scenarios: ten pixels per character.  (The product is taken in `ℕ` before the
cast so that concrete wrap runs evaluate by `decide`.) -/
def measureLen10 (s : String) : ℚ := ((s.length * 10 : ℕ) : ℚ)

/-- The maximal non-whitespace runs of a string, in order: the
"whitespace-split words" in the sense of the specification (the empty tokens
that `split(/\s+/)` produces at the ends are not words). -/
def realWords (s : String) : List String :=
  (jsSplitWs s).filter (fun w => w ≠ "")

/-! ### Helper lemmas about the extracted data and the primitive list -/

theorem buildData_length (cats : List String) (v1 v2 : List Cell) :
    (buildData cats v1 v2).length = cats.length := by
  simp [buildData]

theorem buildData_getElem? (cats : List String) (v1 v2 : List Cell) (i : ℕ)
    (hi : i < cats.length) :
    (buildData cats v1 v2)[i]? = some (pointAt cats v1 v2 i) := by
  simp [buildData, List.getElem?_range hi]

theorem getElem?_append_lt {α : Type} {A B : List α} {i : ℕ} (h : i < A.length) :
    (A ++ B)[i]? = A[i]? :=
  List.getElem?_append_left h

theorem getElem?_append_off {α : Type} {A B : List α} {n i : ℕ} (hA : A.length = n) :
    (A ++ B)[n + i]? = B[i]? := by
  rw [List.getElem?_append_right (by omega)]
  congr 1
  omega

theorem horizontalGridlines_length (data : List DataPoint) (vp : Viewport) :
    (horizontalGridlines data vp).length = data.length := by
  simp [horizontalGridlines]

theorem linesV1V2_length (data : List DataPoint) (vp : Viewport) :
    (linesV1V2 data vp).length = data.length := by
  simp [linesV1V2]

theorem circles1_length (data : List DataPoint) (vp : Viewport) :
    (circles1 data vp).length = data.length := by
  simp [circles1]

theorem circles2_length (data : List DataPoint) (vp : Viewport) :
    (circles2 data vp).length = data.length := by
  simp [circles2]

theorem value1Labels_length (data : List DataPoint) (vp : Viewport) :
    (value1Labels data vp).length = data.length := by
  simp [value1Labels]

theorem value2Labels_length (data : List DataPoint) (vp : Viewport) :
    (value2Labels data vp).length = data.length := by
  simp [value2Labels]

theorem categoryLabels_length (data : List DataPoint) (vp : Viewport)
    (measure : String → ℚ) :
    (categoryLabels data vp measure).length = data.length := by
  simp [categoryLabels]

theorem renderData_eq (cats : List String) (v1 v2 : List Cell) (vp : Viewport)
    (measure : String → ℚ) :
    renderData cats v1 v2 vp measure =
      horizontalGridlines (buildData cats v1 v2) vp
        ++ linesV1V2 (buildData cats v1 v2) vp
        ++ circles1 (buildData cats v1 v2) vp
        ++ circles2 (buildData cats v1 v2) vp
        ++ value1Labels (buildData cats v1 v2) vp
        ++ value2Labels (buildData cats v1 v2) vp
        ++ categoryLabels (buildData cats v1 v2) vp measure := rfl

theorem renderData_length (cats : List String) (v1 v2 : List Cell)
    (vp : Viewport) (measure : String → ℚ) :
    (renderData cats v1 v2 vp measure).length = 7 * cats.length := by
  simp [renderData_eq, horizontalGridlines_length, linesV1V2_length,
    circles1_length, circles2_length, value1Labels_length, value2Labels_length,
    categoryLabels_length, buildData_length]
  ring

theorem renderData_nil (v1 v2 : List Cell) (vp : Viewport)
    (measure : String → ℚ) :
    renderData [] v1 v2 vp measure = [] := rfl

theorem getElem?_seven {α : Type} (A B C D E F G : List α) (n i : ℕ)
    (hA : A.length = n) (hB : B.length = n) (hC : C.length = n)
    (hD : D.length = n) (hE : E.length = n) (hF : F.length = n) (hi : i < n) :
    ((A ++ B ++ C ++ D ++ E ++ F ++ G)[i]? = A[i]?)
      ∧ ((A ++ B ++ C ++ D ++ E ++ F ++ G)[n + i]? = B[i]?)
      ∧ ((A ++ B ++ C ++ D ++ E ++ F ++ G)[2 * n + i]? = C[i]?)
      ∧ ((A ++ B ++ C ++ D ++ E ++ F ++ G)[3 * n + i]? = D[i]?)
      ∧ ((A ++ B ++ C ++ D ++ E ++ F ++ G)[4 * n + i]? = E[i]?)
      ∧ ((A ++ B ++ C ++ D ++ E ++ F ++ G)[5 * n + i]? = F[i]?)
      ∧ ((A ++ B ++ C ++ D ++ E ++ F ++ G)[6 * n + i]? = G[i]?) := by
  refine ⟨?_, ?_, ?_, ?_, ?_, ?_, ?_⟩
  · rw [getElem?_append_lt (by simp [hA, hB, hC, hD, hE, hF]; omega),
      getElem?_append_lt (by simp [hA, hB, hC, hD, hE]; omega),
      getElem?_append_lt (by simp [hA, hB, hC, hD]; omega),
      getElem?_append_lt (by simp [hA, hB, hC]; omega),
      getElem?_append_lt (by simp [hA, hB]; omega),
      getElem?_append_lt (by omega)]
  · rw [getElem?_append_lt (by simp [hA, hB, hC, hD, hE, hF]; omega),
      getElem?_append_lt (by simp [hA, hB, hC, hD, hE]; omega),
      getElem?_append_lt (by simp [hA, hB, hC, hD]; omega),
      getElem?_append_lt (by simp [hA, hB, hC]; omega),
      getElem?_append_lt (by simp [hA, hB]; omega),
      getElem?_append_off hA]
  · rw [getElem?_append_lt (by simp [hA, hB, hC, hD, hE, hF]; omega),
      getElem?_append_lt (by simp [hA, hB, hC, hD, hE]; omega),
      getElem?_append_lt (by simp [hA, hB, hC, hD]; omega),
      getElem?_append_lt (by simp [hA, hB, hC]; omega),
      getElem?_append_off (show (A ++ B).length = 2 * n by simp [hA, hB]; omega)]
  · rw [getElem?_append_lt (by simp [hA, hB, hC, hD, hE, hF]; omega),
      getElem?_append_lt (by simp [hA, hB, hC, hD, hE]; omega),
      getElem?_append_lt (by simp [hA, hB, hC, hD]; omega),
      getElem?_append_off (show (A ++ B ++ C).length = 3 * n by simp [hA, hB, hC]; omega)]
  · rw [getElem?_append_lt (by simp [hA, hB, hC, hD, hE, hF]; omega),
      getElem?_append_lt (by simp [hA, hB, hC, hD, hE]; omega),
      getElem?_append_off (show (A ++ B ++ C ++ D).length = 4 * n by
        simp [hA, hB, hC, hD]; omega)]
  · rw [getElem?_append_lt (by simp [hA, hB, hC, hD, hE, hF]; omega),
      getElem?_append_off (show (A ++ B ++ C ++ D ++ E).length = 5 * n by
        simp [hA, hB, hC, hD, hE]; omega)]
  · rw [getElem?_append_off (show (A ++ B ++ C ++ D ++ E ++ F).length = 6 * n by
        simp [hA, hB, hC, hD, hE, hF]; omega)]

theorem renderData_parts (cats : List String) (v1 v2 : List Cell)
    (vp : Viewport) (measure : String → ℚ) (i : ℕ) (hi : i < cats.length) :
    ((renderData cats v1 v2 vp measure)[i]? =
      some (.line "horizontalGridlines" (.num margin.left)
        (jsSub (xScaleOf (buildData cats v1 v2) vp.width (numAt v1 i)) (.num circleRadius))
        (yScaleOf (buildData cats v1 v2) vp.height (cats.getD i ""))
        (yScaleOf (buildData cats v1 v2) vp.height (cats.getD i ""))
        (some (9 / 10)) 1 (some "3 3") "#CACACA"))
    ∧ ((renderData cats v1 v2 vp measure)[cats.length + i]? =
      some (.line "linesV1V2"
        (jsAdd (xScaleOf (buildData cats v1 v2) vp.width (numAt v1 i)) (.num circleRadius))
        (jsSub (xScaleOf (buildData cats v1 v2) vp.width (numAt v2 i)) (.num circleRadius))
        (yScaleOf (buildData cats v1 v2) vp.height (cats.getD i ""))
        (yScaleOf (buildData cats v1 v2) vp.height (cats.getD i ""))
        none strokeWidth none (colourOf (buildData cats v1 v2) (cats.getD i ""))))
    ∧ ((renderData cats v1 v2 vp measure)[2 * cats.length + i]? =
      some (.circle "circles1" (xScaleOf (buildData cats v1 v2) vp.width (numAt v1 i))
        (yScaleOf (buildData cats v1 v2) vp.height (cats.getD i "")) circleRadius
        "white" (colourOf (buildData cats v1 v2) (cats.getD i "")) strokeWidth))
    ∧ ((renderData cats v1 v2 vp measure)[3 * cats.length + i]? =
      some (.circle "circles2" (xScaleOf (buildData cats v1 v2) vp.width (numAt v2 i))
        (yScaleOf (buildData cats v1 v2) vp.height (cats.getD i "")) circleRadius
        (colourOf (buildData cats v1 v2) (cats.getD i ""))
        (colourOf (buildData cats v1 v2) (cats.getD i "")) strokeWidth))
    ∧ ((renderData cats v1 v2 vp measure)[4 * cats.length + i]? =
      some (.textNum "value1Labels" (xScaleOf (buildData cats v1 v2) vp.width (numAt v1 i))
        (yScaleOf (buildData cats v1 v2) vp.height (cats.getD i "")) "middle"
        (colourOf (buildData cats v1 v2) (cats.getD i "")) (circleRadius - 2) (numAt v1 i)))
    ∧ ((renderData cats v1 v2 vp measure)[5 * cats.length + i]? =
      some (.textNum "value2Labels" (xScaleOf (buildData cats v1 v2) vp.width (numAt v2 i))
        (yScaleOf (buildData cats v1 v2) vp.height (cats.getD i "")) "middle"
        "white" (circleRadius - 2) (numAt v2 i)))
    ∧ ((renderData cats v1 v2 vp measure)[6 * cats.length + i]? =
      some (.textWrapped "categoryLabels" (.num (margin.left - 10))
        (yScaleOf (buildData cats v1 v2) vp.height (cats.getD i "")) "end"
        (cats.getD i "")
        (wrapTspans (wrapFragments (cats.getD i "") 100 measure)))) := by
  have h7 := getElem?_seven
    (horizontalGridlines (buildData cats v1 v2) vp)
    (linesV1V2 (buildData cats v1 v2) vp)
    (circles1 (buildData cats v1 v2) vp)
    (circles2 (buildData cats v1 v2) vp)
    (value1Labels (buildData cats v1 v2) vp)
    (value2Labels (buildData cats v1 v2) vp)
    (categoryLabels (buildData cats v1 v2) vp measure)
    cats.length i
    (by rw [horizontalGridlines_length, buildData_length])
    (by rw [linesV1V2_length, buildData_length])
    (by rw [circles1_length, buildData_length])
    (by rw [circles2_length, buildData_length])
    (by rw [value1Labels_length, buildData_length])
    (by rw [value2Labels_length, buildData_length])
    hi
  refine ⟨?_, ?_, ?_, ?_, ?_, ?_, ?_⟩
  · rw [renderData_eq, h7.1]
    simp only [horizontalGridlines, List.getElem?_map, buildData_getElem? _ _ _ _ hi]
    rfl
  · rw [renderData_eq, h7.2.1]
    simp only [linesV1V2, List.getElem?_map, buildData_getElem? _ _ _ _ hi]
    rfl
  · rw [renderData_eq, h7.2.2.1]
    simp only [circles1, List.getElem?_map, buildData_getElem? _ _ _ _ hi]
    rfl
  · rw [renderData_eq, h7.2.2.2.1]
    simp only [circles2, List.getElem?_map, buildData_getElem? _ _ _ _ hi]
    rfl
  · rw [renderData_eq, h7.2.2.2.2.1]
    simp only [value1Labels, List.getElem?_map, buildData_getElem? _ _ _ _ hi]
    rfl
  · rw [renderData_eq, h7.2.2.2.2.2.1]
    simp only [value2Labels, List.getElem?_map, buildData_getElem? _ _ _ _ hi]
    rfl
  · rw [renderData_eq, h7.2.2.2.2.2.2]
    simp only [categoryLabels, List.getElem?_map, buildData_getElem? _ _ _ _ hi]
    rfl

theorem wrapTspans_x (frags : List String) : ∀ t ∈ wrapTspans frags, t.x = 0 := by
  cases frags with
  | nil => intro t ht; simp [wrapTspans] at ht
  | cons f rest =>
    intro t ht
    simp only [wrapTspans, List.mem_cons, List.mem_map] at ht
    rcases ht with h | ⟨g, _, h⟩
    · subst h; rfl
    · subst h; rfl

theorem wrapTspans_head_dy (frags : List String) :
    ∀ t, (wrapTspans frags).head? = some t → t.dy = 0 := by
  cases frags with
  | nil => intro t ht; simp [wrapTspans] at ht
  | cons f rest =>
    intro t ht
    simp only [wrapTspans, List.head?_cons, Option.some.injEq] at ht
    subst ht; rfl

theorem wrapTspans_tail_dy (frags : List String) :
    ∀ t ∈ (wrapTspans frags).tail, t.dy = 6 / 5 := by
  cases frags with
  | nil => intro t ht; simp [wrapTspans] at ht
  | cons f rest =>
    intro t ht
    simp only [wrapTspans, List.tail_cons, List.mem_map] at ht
    rcases ht with ⟨g, _, h⟩
    subst h; rfl

theorem d3Max_const_zero (l : List JsNum) (hne : l ≠ [])
    (hz : ∀ x ∈ l, x = .num 0) : d3Max l = some 0 := by
  have aux : ∀ rest : List JsNum, (∀ x ∈ rest, x = .num 0) →
      List.foldl (fun acc v =>
        match v with
        | .nan => acc
        | .num q =>
          match acc with
          | none => some q
          | some m => if m < q then some q else some m) (some (0 : ℚ)) rest = some 0 := by
    intro rest
    induction rest with
    | nil => intro _; rfl
    | cons y t ih =>
      intro hz'
      have hy := hz' y (by simp)
      subst hy
      simp only [List.foldl_cons]
      have hstep : (if (0 : ℚ) < 0 then some (0 : ℚ) else some (0 : ℚ)) = some 0 := by
        simp
      exact hstep ▸ ih (fun x hx => hz' x (List.mem_cons_of_mem _ hx))
  cases l with
  | nil => exact absurd rfl hne
  | cons x rest =>
    have hx := hz x (by simp)
    subst hx
    simp only [d3Max, List.foldl_cons]
    exact aux rest (fun x hx => hz x (List.mem_cons_of_mem _ hx))

/-! ### Claim theorems -/

/-- C1, counterexample: `update` does not inspect the viewport, so with a
well-formed one-row data view and a zero-sized viewport the render still
appends seven primitives — refuting the claim's "viewport has non-positive
dimensions implies no primitives are emitted" conjunct.  (The SVG surface is
merely sized to width 0 and height 0.) -/
theorem updateGuard_viewport_counterexample :
    updateModel [⟨some ⟨some [["A"]], some [[Cell.num 1], [Cell.num 2]]⟩⟩]
        ⟨0, 0⟩ measureLen10 ≠ []
    ∧ (updateModel [⟨some ⟨some [["A"]], some [[Cell.num 1], [Cell.num 2]]⟩⟩]
        ⟨0, 0⟩ measureLen10).length = 7 := by
  constructor
  · decide
  · rfl

/-- C1, amended: if the data view is absent, or lacks a categorical mapping,
or lacks a categories or values field, or has fewer than two measure columns,
or the first category column is empty, then the render emits no primitives
(the surface was cleared beforehand).  The viewport is not checked: a
non-positive viewport emits the usual primitives. -/
theorem updateGuard_amended (dvs : List DataView) (vp : Viewport)
    (measure : String → ℚ) (h : degenerateInput dvs) :
    updateModel dvs vp measure = [] := by
  rcases dvs with _ | ⟨dv, rest⟩
  · rfl
  · rcases dv with ⟨cat?⟩
    rcases cat? with _ | ⟨cat⟩
    · rfl
    · rcases cat with ⟨cats?, vals?⟩
      rcases cats? with _ | ⟨catCols⟩
      · rfl
      · rcases vals? with _ | ⟨vals⟩
        · rfl
        · have h' : vals.length < 2 ∨ catCols.getD 0 [] = [] := h
          show (if vals.length < 2 then []
            else renderData (catCols.getD 0 []) (vals.getD 0 []) (vals.getD 1 [])
              vp measure) = []
          rcases h' with h1 | h1
          · rw [if_pos h1]
          · by_cases h2 : vals.length < 2
            · rw [if_pos h2]
            · rw [if_neg h2, h1, renderData_nil]

/-- Witness for the amended C1 theorem at a concrete degenerate input: the
empty data-view list renders nothing. -/
theorem updateGuard_amended_witness :
    updateModel [] ⟨250, 250⟩ measureLen10 = [] :=
  updateGuard_amended [] ⟨250, 250⟩ measureLen10 True.intro

/-- C2: for a non-empty dataset and a positive viewport the render emits
exactly seven primitives per data point, in a fixed order: the primitive list
has length `7 * n`, and for every row `i` the slots `i`, `n + i`, ...,
`6 * n + i` hold, respectively, that row's dashed gridline, connector line,
`Value1` circle, `Value2` circle, `Value1` label, `Value2` label and wrapped
category label. -/
theorem sevenPrimitivesPerPoint (cats : List String) (v1 v2 : List Cell)
    (vp : Viewport) (measure : String → ℚ) (hne : cats ≠ [])
    (hw : 0 < vp.width) (hh : 0 < vp.height) :
    (renderData cats v1 v2 vp measure).length = 7 * cats.length
    ∧ ∀ i, i < cats.length →
      ((renderData cats v1 v2 vp measure)[i]? =
        some (.line "horizontalGridlines" (.num margin.left)
          (jsSub (xScaleOf (buildData cats v1 v2) vp.width (numAt v1 i)) (.num circleRadius))
          (yScaleOf (buildData cats v1 v2) vp.height (cats.getD i ""))
          (yScaleOf (buildData cats v1 v2) vp.height (cats.getD i ""))
          (some (9 / 10)) 1 (some "3 3") "#CACACA"))
      ∧ ((renderData cats v1 v2 vp measure)[cats.length + i]? =
        some (.line "linesV1V2"
          (jsAdd (xScaleOf (buildData cats v1 v2) vp.width (numAt v1 i)) (.num circleRadius))
          (jsSub (xScaleOf (buildData cats v1 v2) vp.width (numAt v2 i)) (.num circleRadius))
          (yScaleOf (buildData cats v1 v2) vp.height (cats.getD i ""))
          (yScaleOf (buildData cats v1 v2) vp.height (cats.getD i ""))
          none strokeWidth none (colourOf (buildData cats v1 v2) (cats.getD i ""))))
      ∧ ((renderData cats v1 v2 vp measure)[2 * cats.length + i]? =
        some (.circle "circles1" (xScaleOf (buildData cats v1 v2) vp.width (numAt v1 i))
          (yScaleOf (buildData cats v1 v2) vp.height (cats.getD i "")) circleRadius
          "white" (colourOf (buildData cats v1 v2) (cats.getD i "")) strokeWidth))
      ∧ ((renderData cats v1 v2 vp measure)[3 * cats.length + i]? =
        some (.circle "circles2" (xScaleOf (buildData cats v1 v2) vp.width (numAt v2 i))
          (yScaleOf (buildData cats v1 v2) vp.height (cats.getD i "")) circleRadius
          (colourOf (buildData cats v1 v2) (cats.getD i ""))
          (colourOf (buildData cats v1 v2) (cats.getD i "")) strokeWidth))
      ∧ ((renderData cats v1 v2 vp measure)[4 * cats.length + i]? =
        some (.textNum "value1Labels" (xScaleOf (buildData cats v1 v2) vp.width (numAt v1 i))
          (yScaleOf (buildData cats v1 v2) vp.height (cats.getD i "")) "middle"
          (colourOf (buildData cats v1 v2) (cats.getD i "")) (circleRadius - 2) (numAt v1 i)))
      ∧ ((renderData cats v1 v2 vp measure)[5 * cats.length + i]? =
        some (.textNum "value2Labels" (xScaleOf (buildData cats v1 v2) vp.width (numAt v2 i))
          (yScaleOf (buildData cats v1 v2) vp.height (cats.getD i "")) "middle"
          "white" (circleRadius - 2) (numAt v2 i)))
      ∧ ((renderData cats v1 v2 vp measure)[6 * cats.length + i]? =
        some (.textWrapped "categoryLabels" (.num (margin.left - 10))
          (yScaleOf (buildData cats v1 v2) vp.height (cats.getD i "")) "end"
          (cats.getD i "")
          (wrapTspans (wrapFragments (cats.getD i "") 100 measure)))) :=
  ⟨renderData_length cats v1 v2 vp measure,
    fun i hi => renderData_parts cats v1 v2 vp measure i hi⟩

/-- Witness for C2 at a concrete one-row input and positive viewport. -/
theorem sevenPrimitivesPerPoint_witness :
    (renderData ["A"] [Cell.num 1] [Cell.num 2] ⟨500, 300⟩ measureLen10).length = 7 :=
  (sevenPrimitivesPerPoint ["A"] [Cell.num 1] [Cell.num 2] ⟨500, 300⟩ measureLen10
    (by decide) (by decide) (by decide)).1

/-- C4: with a positive domain maximum and a viewport wide enough that the
range is nondegenerate, the horizontal scale sends `0` to `margin.left`, the
maximum to `width - margin.right`, and is strictly monotone. -/
theorem xScale_monotone_endpoints (data : List DataPoint) (width m : ℚ)
    (hm : d3MaxOf data = some m) (hmpos : 0 < m)
    (hrange : margin.left < width - margin.right) :
    xScaleOf data width (.num 0) = .num margin.left
    ∧ xScaleOf data width (.num m) = .num (width - margin.right)
    ∧ ∀ q1 q2 a b : ℚ, q1 < q2 →
        xScaleOf data width (.num q1) = .num a →
        xScaleOf data width (.num q2) = .num b → a < b := by
  have hm0 : m ≠ 0 := ne_of_gt hmpos
  refine ⟨?_, ?_, ?_⟩
  · simp only [xScaleOf, scaleLinearFromZero, hm, if_neg hm0]
    norm_num
  · simp only [xScaleOf, scaleLinearFromZero, hm, if_neg hm0]
    rw [div_self hm0]
    norm_num
  · intro q1 q2 a b hq h1 h2
    simp only [xScaleOf, scaleLinearFromZero, hm, if_neg hm0, JsNum.num.injEq] at h1 h2
    rw [← h1, ← h2]
    have hexp : margin.left * (1 - q2 / m) + (width - margin.right) * (q2 / m)
        - (margin.left * (1 - q1 / m) + (width - margin.right) * (q1 / m))
        = (width - margin.right - margin.left) * ((q2 - q1) / m) := by
      field_simp
      ring
    have hlt : (0 : ℚ) < (width - margin.right - margin.left) * ((q2 - q1) / m) :=
      mul_pos (by linarith) (div_pos (by linarith) hmpos)
    linarith

/-- Witness for C4 at a concrete dataset whose domain maximum is `7` and a
500-pixel-wide viewport. -/
theorem xScale_monotone_endpoints_witness :
    xScaleOf [⟨"A", .num 5, .num 7⟩] 500 (.num 0) = .num margin.left
    ∧ xScaleOf [⟨"A", .num 5, .num 7⟩] 500 (.num 7) = .num (500 - margin.right) := by
  have hmax : d3MaxOf [⟨"A", .num 5, .num 7⟩] = some 7 := by
    norm_num [d3MaxOf, d3Max, jsMax, max_def]
  have h := xScale_monotone_endpoints [⟨"A", .num 5, .num 7⟩] 500 7 hmax
    (by norm_num) (by norm_num [margin])
  exact ⟨h.1, h.2.1⟩

/-- C5, counterexample: when every value is zero the domain upper bound is 0,
but d3's degenerate-domain normalizer is the constant `0.5`, so the scale maps
the domain point `0` to the midpoint of the range — here `135` for a width of
`200` — and not to `margin.left = 100` as the claim states. -/
theorem xScale_zeroDomain_counterexample :
    xScaleOf [⟨"A", .num 0, .num 0⟩] 200 (.num 0) = .num 135
    ∧ JsNum.num 135 ≠ .num margin.left := by
  have hmax : d3MaxOf [(⟨"A", .num 0, .num 0⟩ : DataPoint)] = some 0 := by
    simp [d3MaxOf, d3Max, jsMax]
  constructor
  · simp only [xScaleOf, scaleLinearFromZero, hmax, if_pos]
    norm_num [margin]
  · intro h
    have : (135 : ℚ) = margin.left := by injection h
    norm_num [margin] at this

/-- C5, amended: when every value of a non-empty dataset is zero, the domain
upper bound is `0` and the scale maps every numeric value to the midpoint of
the range `[margin.left, width - margin.right]` (d3's degenerate-domain
normalizer is the constant `0.5`), not to the left margin. -/
theorem xScale_zeroDomain_midpoint (data : List DataPoint) (width : ℚ)
    (hne : data ≠ []) (hz : ∀ d ∈ data, d.Value1 = .num 0 ∧ d.Value2 = .num 0) :
    d3MaxOf data = some 0
    ∧ ∀ q : ℚ, xScaleOf data width (.num q) =
        .num ((margin.left + (width - margin.right)) / 2) := by
  have hmax : d3MaxOf data = some 0 := by
    apply d3Max_const_zero
    · intro hc
      exact hne (List.map_eq_nil_iff.mp hc)
    · intro x hx
      obtain ⟨d, hd, rfl⟩ := List.mem_map.mp hx
      obtain ⟨h1, h2⟩ := hz d hd
      rw [h1, h2]
      simp [jsMax]
  refine ⟨hmax, fun q => ?_⟩
  simp only [xScaleOf, scaleLinearFromZero, hmax]
  rw [if_true]
  congr 1
  ring

/-- Witness for the amended C5 theorem on a concrete all-zero dataset: the
scale sends `0` to the midpoint `135` of the range `[100, 170]`. -/
theorem xScale_zeroDomain_midpoint_witness :
    xScaleOf [⟨"A", .num 0, .num 0⟩, ⟨"B", .num 0, .num 0⟩] 200 (.num 0) =
      .num ((margin.left + (200 - margin.right)) / 2) :=
  (xScale_zeroDomain_midpoint [⟨"A", .num 0, .num 0⟩, ⟨"B", .num 0, .num 0⟩] 200
    (by decide) (by decide)).2 0

/-- C7, counterexample: the category-label text element does carry
`x = margin.left - 10` and `text-anchor: end`, but `wrap` gives every tspan —
including the first — the attribute `x = 0`, so the wrapped line fragments are
not stacked under the anchor position `margin.left - 10 = 90`: they sit at
`x = 0`.  Shown on a label that wraps into two fragments. -/
theorem categoryLabel_tspanX_counterexample :
    (renderData ["Alphabet Category"] [Cell.num 1] [Cell.num 2] ⟨500, 300⟩ measureLen10)[6]? =
      some (.textWrapped "categoryLabels" (.num (margin.left - 10)) (.num 165) "end"
        "Alphabet Category" [⟨0, 0, "Alphabet"⟩, ⟨0, 6 / 5, "Category"⟩])
    ∧ (0 : ℚ) ≠ margin.left - 10 := by
  constructor
  · have h : (renderData ["Alphabet Category"] [Cell.num 1] [Cell.num 2] ⟨500, 300⟩ measureLen10)[6]? =
        some (.textWrapped "categoryLabels" (.num (margin.left - 10))
          (yScaleOf (buildData ["Alphabet Category"] [Cell.num 1] [Cell.num 2])
            (⟨500, 300⟩ : Viewport).height ((["Alphabet Category"] : List String).getD 0 ""))
          "end" ((["Alphabet Category"] : List String).getD 0 "")
          (wrapTspans (wrapFragments ((["Alphabet Category"] : List String).getD 0 "") 100 measureLen10))) :=
      (renderData_parts ["Alphabet Category"] [Cell.num 1] [Cell.num 2] ⟨500, 300⟩ measureLen10 0
        (by decide)).2.2.2.2.2.2
    rw [show ((["Alphabet Category"] : List String).getD 0 "") = "Alphabet Category" from rfl] at h
    rw [show (⟨500, 300⟩ : Viewport).height = (300 : ℚ) from rfl] at h
    have hy : yScaleOf (buildData ["Alphabet Category"] [Cell.num 1] [Cell.num 2]) 300
        "Alphabet Category" = .num 165 := by
      have hdom : yDomainOf (buildData ["Alphabet Category"] [Cell.num 1] [Cell.num 2]) =
          ["Alphabet Category"] := rfl
      simp only [yScaleOf, hdom]
      rw [if_pos (by decide)]
      norm_num [pointScalePos, margin]
    rw [hy] at h
    rw [show wrapTspans (wrapFragments "Alphabet Category" 100 measureLen10) =
        [(⟨0, 0, "Alphabet"⟩ : Tspan), ⟨0, 6 / 5, "Category"⟩] from rfl] at h
    exact h
  · intro hcontra
    have h0 : (0 : ℚ) = margin.left - 10 := hcontra
    norm_num [margin] at h0

/-- C7, amended: every category label is a right-aligned (`text-anchor: end`)
text primitive whose own `x` attribute is `margin.left - 10`, at the point's
y-coordinate; after wrapping, its line fragments are tspans stacked
vertically at a fixed line height of 1.2 em (1.2 times the base font size) —
the first at `dy = 0`, each further at `dy = 1.2` em — but every tspan carries
`x = 0`, overriding the anchor's x position. -/
theorem categoryLabel_amended (cats : List String) (v1 v2 : List Cell)
    (vp : Viewport) (measure : String → ℚ) (i : ℕ) (hi : i < cats.length) :
    ((renderData cats v1 v2 vp measure)[6 * cats.length + i]? =
      some (.textWrapped "categoryLabels" (.num (margin.left - 10))
        (yScaleOf (buildData cats v1 v2) vp.height (cats.getD i "")) "end" (cats.getD i "")
        (wrapTspans (wrapFragments (cats.getD i "") 100 measure))))
    ∧ (∀ t ∈ wrapTspans (wrapFragments (cats.getD i "") 100 measure), t.x = 0)
    ∧ (∀ t, (wrapTspans (wrapFragments (cats.getD i "") 100 measure)).head? = some t → t.dy = 0)
    ∧ (∀ t ∈ (wrapTspans (wrapFragments (cats.getD i "") 100 measure)).tail, t.dy = 6 / 5) :=
  ⟨(renderData_parts cats v1 v2 vp measure i hi).2.2.2.2.2.2,
    wrapTspans_x _, wrapTspans_head_dy _, wrapTspans_tail_dy _⟩

/-- Witness for the amended C7 theorem at a concrete wrapped label. -/
theorem categoryLabel_amended_witness :
    (renderData ["Alphabet Category"] [Cell.num 3] [Cell.num 4] ⟨400, 200⟩ measureLen10)[6]? =
      some (.textWrapped "categoryLabels" (.num (margin.left - 10))
        (yScaleOf (buildData ["Alphabet Category"] [Cell.num 3] [Cell.num 4]) 200
          "Alphabet Category")
        "end" "Alphabet Category"
        (wrapTspans (wrapFragments "Alphabet Category" 100 measureLen10))) :=
  (categoryLabel_amended ["Alphabet Category"] [Cell.num 3] [Cell.num 4] ⟨400, 200⟩
    measureLen10 0 (by decide)).1

/-- C8: the spec's two concrete wrap scenarios under the ten-pixels-per-
character measurement: `"hello world foo"` at limit 60 wraps one word per
line, and `"a b c d"` at limit 100 stays on a single line. -/
theorem wrap_concrete_scenarios :
    wrapFragments "hello world foo" 60 measureLen10 = ["hello", "world", "foo"]
    ∧ wrapFragments "a b c d" 100 measureLen10 = ["a b c d"] :=
  ⟨by decide, by decide⟩

/-- C9: a measure cell whose numeric coercion fails becomes NaN in the
extracted row, and the render still emits that row's primitives, with
NaN-valued coordinates wherever the scaled value enters — the row is neither
skipped nor validated (and, the model being a total function, no exception is
thrown).  Concretely: with categories `["A", "B"]` and B's first measure
non-numeric, row 1 of the data carries NaN, the full `update` still emits
`14 = 7 * 2` primitives, and B's gridline x2, connector x1, `Value1` circle
cx and `Value1` label x and text are all NaN. -/
theorem nan_propagation :
    ((buildData ["A", "B"] [Cell.num 5, Cell.nonNumeric] [Cell.num 7, Cell.num 3])[1]? =
      some ⟨"B", JsNum.nan, .num 3⟩)
    ∧ (updateModel
        [⟨some ⟨some [["A", "B"]], some [[Cell.num 5, Cell.nonNumeric], [Cell.num 7, Cell.num 3]]⟩⟩]
        ⟨500, 300⟩ measureLen10 =
      renderData ["A", "B"] [Cell.num 5, Cell.nonNumeric] [Cell.num 7, Cell.num 3]
        ⟨500, 300⟩ measureLen10)
    ∧ ((renderData ["A", "B"] [Cell.num 5, Cell.nonNumeric] [Cell.num 7, Cell.num 3]
        ⟨500, 300⟩ measureLen10).length = 14)
    ∧ ((renderData ["A", "B"] [Cell.num 5, Cell.nonNumeric] [Cell.num 7, Cell.num 3]
        ⟨500, 300⟩ measureLen10)[1]? =
      some (.line "horizontalGridlines" (.num margin.left) JsNum.nan (.num 270) (.num 270)
        (some (9 / 10)) 1 (some "3 3") "#CACACA"))
    ∧ ((renderData ["A", "B"] [Cell.num 5, Cell.nonNumeric] [Cell.num 7, Cell.num 3]
        ⟨500, 300⟩ measureLen10)[3]? =
      some (.line "linesV1V2" JsNum.nan (.num (1712 / 7)) (.num 270) (.num 270)
        none strokeWidth none "#375071"))
    ∧ ((renderData ["A", "B"] [Cell.num 5, Cell.nonNumeric] [Cell.num 7, Cell.num 3]
        ⟨500, 300⟩ measureLen10)[5]? =
      some (.circle "circles1" JsNum.nan (.num 270) circleRadius "white" "#375071" strokeWidth))
    ∧ ((renderData ["A", "B"] [Cell.num 5, Cell.nonNumeric] [Cell.num 7, Cell.num 3]
        ⟨500, 300⟩ measureLen10)[9]? =
      some (.textNum "value1Labels" JsNum.nan (.num 270) "middle" "#375071"
        (circleRadius - 2) JsNum.nan)) := by
  have hy : yScaleOf (buildData ["A", "B"] [Cell.num 5, Cell.nonNumeric] [Cell.num 7, Cell.num 3])
      300 "B" = .num 270 := by
    have hdom : yDomainOf (buildData ["A", "B"] [Cell.num 5, Cell.nonNumeric] [Cell.num 7, Cell.num 3]) =
        ["A", "B"] := rfl
    simp only [yScaleOf, hdom]
    rw [if_pos (by decide)]
    have hidx : (["A", "B"] : List String).indexOf "B" = 1 := rfl
    rw [hidx]
    norm_num [pointScalePos, margin]
  have hmax : d3MaxOf (buildData ["A", "B"] [Cell.num 5, Cell.nonNumeric] [Cell.num 7, Cell.num 3]) =
      some 7 := by
    norm_num [d3MaxOf, d3Max, jsMax, buildData, pointAt, numAt, List.range, List.range.loop,
      Cell.toNumber, max_def]
  have hx3 : xScaleOf (buildData ["A", "B"] [Cell.num 5, Cell.nonNumeric] [Cell.num 7, Cell.num 3])
      500 (.num 3) = .num (1810 / 7) := by
    simp only [xScaleOf, scaleLinearFromZero, hmax]
    rw [if_neg (by norm_num)]
    norm_num [margin]
  have hparts := fun (i : ℕ) (hi : i < (["A", "B"] : List String).length) =>
    renderData_parts ["A", "B"] [Cell.num 5, Cell.nonNumeric] [Cell.num 7, Cell.num 3]
      ⟨500, 300⟩ measureLen10 i hi
  refine ⟨rfl, rfl, rfl, ?_, ?_, ?_, ?_⟩
  · have h := (hparts 1 (by decide)).1
    rw [show (⟨500, 300⟩ : Viewport).height = (300 : ℚ) from rfl,
      show (⟨500, 300⟩ : Viewport).width = (500 : ℚ) from rfl,
      show ((["A", "B"] : List String).getD 1 "") = "B" from rfl,
      show numAt [Cell.num 5, Cell.nonNumeric] 1 = JsNum.nan from rfl] at h
    rw [show xScaleOf (buildData ["A", "B"] [Cell.num 5, Cell.nonNumeric] [Cell.num 7, Cell.num 3])
        500 JsNum.nan = JsNum.nan from rfl] at h
    rw [show jsSub JsNum.nan (.num circleRadius) = JsNum.nan from rfl] at h
    rw [hy] at h
    exact h
  · have h := (hparts 1 (by decide)).2.1
    rw [show (⟨500, 300⟩ : Viewport).height = (300 : ℚ) from rfl,
      show (⟨500, 300⟩ : Viewport).width = (500 : ℚ) from rfl,
      show ((["A", "B"] : List String).getD 1 "") = "B" from rfl,
      show numAt [Cell.num 5, Cell.nonNumeric] 1 = JsNum.nan from rfl,
      show numAt [Cell.num 7, Cell.num 3] 1 = JsNum.num 3 from rfl] at h
    rw [show xScaleOf (buildData ["A", "B"] [Cell.num 5, Cell.nonNumeric] [Cell.num 7, Cell.num 3])
        500 JsNum.nan = JsNum.nan from rfl] at h
    rw [show jsAdd JsNum.nan (.num circleRadius) = JsNum.nan from rfl] at h
    rw [hx3] at h
    rw [show jsSub (JsNum.num (1810 / 7)) (.num circleRadius) =
        .num (1810 / 7 - circleRadius) from rfl] at h
    rw [hy] at h
    rw [show colourOf (buildData ["A", "B"] [Cell.num 5, Cell.nonNumeric] [Cell.num 7, Cell.num 3])
        "B" = "#375071" from rfl] at h
    rw [show (1810 / 7 - circleRadius : ℚ) = 1712 / 7 by norm_num [circleRadius]] at h
    exact h
  · have h := (hparts 1 (by decide)).2.2.1
    rw [show (⟨500, 300⟩ : Viewport).height = (300 : ℚ) from rfl,
      show (⟨500, 300⟩ : Viewport).width = (500 : ℚ) from rfl,
      show ((["A", "B"] : List String).getD 1 "") = "B" from rfl,
      show numAt [Cell.num 5, Cell.nonNumeric] 1 = JsNum.nan from rfl] at h
    rw [show xScaleOf (buildData ["A", "B"] [Cell.num 5, Cell.nonNumeric] [Cell.num 7, Cell.num 3])
        500 JsNum.nan = JsNum.nan from rfl] at h
    rw [hy] at h
    rw [show colourOf (buildData ["A", "B"] [Cell.num 5, Cell.nonNumeric] [Cell.num 7, Cell.num 3])
        "B" = "#375071" from rfl] at h
    exact h
  · have h := (hparts 1 (by decide)).2.2.2.2.1
    rw [show (⟨500, 300⟩ : Viewport).height = (300 : ℚ) from rfl,
      show (⟨500, 300⟩ : Viewport).width = (500 : ℚ) from rfl,
      show ((["A", "B"] : List String).getD 1 "") = "B" from rfl,
      show numAt [Cell.num 5, Cell.nonNumeric] 1 = JsNum.nan from rfl] at h
    rw [show xScaleOf (buildData ["A", "B"] [Cell.num 5, Cell.nonNumeric] [Cell.num 7, Cell.num 3])
        500 JsNum.nan = JsNum.nan from rfl] at h
    rw [hy] at h
    rw [show colourOf (buildData ["A", "B"] [Cell.num 5, Cell.nonNumeric] [Cell.num 7, Cell.num 3])
        "B" = "#375071" from rfl] at h
    exact h

/-- C10: for every row, the gridline runs from `x1 = margin.left` to
`x2 = xScale(Value1) - circleRadius` and the connector from
`xScale(Value1) + circleRadius` to `xScale(Value2) - circleRadius`, without
clamping and with no guarantee that `x1 ≤ x2`: when `Value1 = 0` and the
domain maximum is positive, the gridline's `x2 = margin.left - circleRadius`
lies strictly to the left of its `x1 = margin.left`. -/
theorem gridline_connector_endpoints (cats : List String) (v1 v2 : List Cell)
    (vp : Viewport) (measure : String → ℚ) (i : ℕ) (hi : i < cats.length) :
    ((renderData cats v1 v2 vp measure)[i]? =
      some (.line "horizontalGridlines" (.num margin.left)
        (jsSub (xScaleOf (buildData cats v1 v2) vp.width (numAt v1 i)) (.num circleRadius))
        (yScaleOf (buildData cats v1 v2) vp.height (cats.getD i ""))
        (yScaleOf (buildData cats v1 v2) vp.height (cats.getD i ""))
        (some (9 / 10)) 1 (some "3 3") "#CACACA"))
    ∧ ((renderData cats v1 v2 vp measure)[cats.length + i]? =
      some (.line "linesV1V2"
        (jsAdd (xScaleOf (buildData cats v1 v2) vp.width (numAt v1 i)) (.num circleRadius))
        (jsSub (xScaleOf (buildData cats v1 v2) vp.width (numAt v2 i)) (.num circleRadius))
        (yScaleOf (buildData cats v1 v2) vp.height (cats.getD i ""))
        (yScaleOf (buildData cats v1 v2) vp.height (cats.getD i ""))
        none strokeWidth none (colourOf (buildData cats v1 v2) (cats.getD i ""))))
    ∧ (∀ m : ℚ, d3MaxOf (buildData cats v1 v2) = some m → 0 < m →
        numAt v1 i = .num 0 →
        jsSub (xScaleOf (buildData cats v1 v2) vp.width (numAt v1 i)) (.num circleRadius)
          = .num (margin.left - circleRadius)
        ∧ margin.left - circleRadius < margin.left) := by
  have h := renderData_parts cats v1 v2 vp measure i hi
  refine ⟨h.1, h.2.1, ?_⟩
  intro m hm hmpos hv
  rw [hv]
  constructor
  · simp only [xScaleOf, scaleLinearFromZero, hm]
    rw [if_neg (ne_of_gt hmpos)]
    simp only [jsSub, JsNum.num.injEq]
    norm_num
  · norm_num [margin, circleRadius]

/-- Witness for C10 at a concrete row with `Value1 = 0` and domain maximum 5:
the gridline's x2 is `86 = margin.left - circleRadius`, left of the left
margin. -/
theorem gridline_connector_endpoints_witness :
    jsSub (xScaleOf (buildData ["A"] [Cell.num 0] [Cell.num 5]) 500 (numAt [Cell.num 0] 0))
        (.num circleRadius) = .num (margin.left - circleRadius)
    ∧ margin.left - circleRadius < margin.left := by
  have hm5 : d3MaxOf (buildData ["A"] [Cell.num 0] [Cell.num 5]) = some 5 := by
    norm_num [d3MaxOf, d3Max, jsMax, buildData, pointAt, numAt, List.range, List.range.loop,
      Cell.toNumber, max_def]
  exact (gridline_connector_endpoints ["A"] [Cell.num 0] [Cell.num 5] ⟨500, 300⟩
    measureLen10 0 (by decide)).2.2 5 hm5 (by norm_num) rfl

theorem buildData_map_categories (cats : List String) (v1 v2 : List Cell) :
    (buildData cats v1 v2).map (fun d => d.Categories) = cats := by
  apply List.ext_getElem?
  intro i
  by_cases h : i < cats.length
  · simp only [List.getElem?_map, buildData, List.getElem?_range h, Option.map_some', pointAt]
    rw [List.getElem?_eq_getElem h]
    simp [List.getD_eq_getElem?_getD, List.getElem?_eq_getElem h]
  · have h1 : cats.length ≤ i := Nat.le_of_not_lt h
    simp only [List.getElem?_map, buildData]
    rw [List.getElem?_eq_none (by simpa using h1), List.getElem?_eq_none h1]
    rfl

theorem dedupFirstAux_of_nodup : ∀ (l seen : List String), l.Nodup →
    (∀ x ∈ l, x ∉ seen) → dedupFirstAux l seen = l := by
  intro l
  induction l with
  | nil => intro seen _ _; rfl
  | cons c rest ih =>
    intro seen hnd hno
    have hc : c ∉ seen := hno c (by simp)
    simp only [dedupFirstAux, if_neg hc]
    congr 1
    apply ih
    · exact (List.nodup_cons.mp hnd).2
    · intro x hx hmem
      rcases List.mem_cons.mp hmem with rfl | hxs
      · exact (List.nodup_cons.mp hnd).1 hx
      · exact hno x (List.mem_cons_of_mem _ hx) hxs

theorem dedupFirst_of_nodup (l : List String) (h : l.Nodup) : dedupFirst l = l :=
  dedupFirstAux_of_nodup l [] h (by simp)

theorem pointScalePos_formula (n : ℕ) (r0 r1 : ℚ) (i : ℕ) (hn : 2 ≤ n) :
    pointScalePos n r0 r1 i = r0 + (r1 - r0) / ((n : ℚ) - 1) * i := by
  have h1 : (max 1 (n - 1) : ℕ) = n - 1 := Nat.max_eq_right (by omega)
  have h2 : ((n - 1 : ℕ) : ℚ) = (n : ℚ) - 1 := by
    rw [Nat.cast_sub (by omega)]
    norm_num
  have hne : ((n : ℚ) - 1) ≠ 0 := by
    have h3 : (2 : ℚ) ≤ (n : ℚ) := by exact_mod_cast hn
    intro hc
    rw [sub_eq_zero] at hc
    rw [hc] at h3
    norm_num at h3
  simp only [pointScalePos]
  rw [h1, h2, div_mul_cancel₀ _ hne]
  ring

/-- C6: over a dataset with distinct categories and a viewport tall enough
that the vertical range is nondegenerate, the point scale used by the render
gives category `i` the position `pointScalePos n margin.top
(height - margin.bottom) i`; these positions are strictly increasing in input
order, consecutive positions differ by the constant step
`(height - margin.bottom - margin.top) / (n - 1)`, and (for at least two
categories) the first and last categories sit exactly at the two ends of the
range. -/
theorem yScale_evenSpacing (cats : List String) (height : ℚ)
    (hnd : cats.Nodup) (hr : margin.top < height - margin.bottom) :
    (∀ (v1 v2 : List Cell) (i : ℕ) (hi : i < cats.length),
      yScaleOf (buildData cats v1 v2) height (cats.getD i "") =
        .num (pointScalePos cats.length margin.top (height - margin.bottom) i))
    ∧ (∀ i j : ℕ, i < j → j < cats.length →
        pointScalePos cats.length margin.top (height - margin.bottom) i <
          pointScalePos cats.length margin.top (height - margin.bottom) j)
    ∧ (∀ i : ℕ, i + 1 < cats.length →
        pointScalePos cats.length margin.top (height - margin.bottom) (i + 1) -
          pointScalePos cats.length margin.top (height - margin.bottom) i =
          (height - margin.bottom - margin.top) / ((cats.length : ℚ) - 1))
    ∧ (2 ≤ cats.length →
        pointScalePos cats.length margin.top (height - margin.bottom) 0 = margin.top
        ∧ pointScalePos cats.length margin.top (height - margin.bottom) (cats.length - 1) =
            height - margin.bottom) := by
  refine ⟨?_, ?_, ?_, ?_⟩
  · intro v1 v2 i hi
    have hdom : yDomainOf (buildData cats v1 v2) = cats := by
      simp only [yDomainOf]
      rw [buildData_map_categories, dedupFirst_of_nodup cats hnd]
    simp only [yScaleOf, hdom]
    have hgd : cats.getD i "" = cats.get ⟨i, hi⟩ := by
      rw [List.getD_eq_getElem?_getD, List.getElem?_eq_getElem hi]
      rfl
    rw [hgd, if_pos (List.get_mem cats i hi)]
    rw [List.get_indexOf hnd ⟨i, hi⟩]
  · intro i j hij hj
    have hn : 2 ≤ cats.length := by omega
    rw [pointScalePos_formula _ _ _ _ hn, pointScalePos_formula _ _ _ _ hn]
    have hn2 : (2 : ℚ) ≤ (cats.length : ℚ) := by exact_mod_cast hn
    have hstep : 0 < (height - margin.bottom - margin.top) / ((cats.length : ℚ) - 1) :=
      div_pos (by linarith) (by linarith)
    have hcast : (i : ℚ) < (j : ℚ) := by exact_mod_cast hij
    have hmul := mul_lt_mul_of_pos_left hcast hstep
    linarith
  · intro i hi1
    have hn : 2 ≤ cats.length := by omega
    rw [pointScalePos_formula _ _ _ _ hn, pointScalePos_formula _ _ _ _ hn]
    push_cast
    ring
  · intro hn
    have hn2 : (2 : ℚ) ≤ (cats.length : ℚ) := by exact_mod_cast hn
    have hne : ((cats.length : ℚ) - 1) ≠ 0 := by
      intro hc
      rw [sub_eq_zero] at hc
      rw [hc] at hn2
      norm_num at hn2
    constructor
    · rw [pointScalePos_formula _ _ _ _ hn]
      norm_num
    · rw [pointScalePos_formula _ _ _ _ hn]
      have hcast : ((cats.length - 1 : ℕ) : ℚ) = (cats.length : ℚ) - 1 := by
        rw [Nat.cast_sub (by omega)]
        norm_num
      rw [hcast, div_mul_cancel₀ _ hne]
      ring

/-- Witness for C6 on three distinct categories in a 300-pixel-tall viewport:
category 0 takes the computed point-scale position and sits strictly above
category 1. -/
theorem yScale_evenSpacing_witness :
    yScaleOf (buildData ["A", "B", "C"] [] []) 300 ((["A", "B", "C"] : List String).getD 0 "") =
      .num (pointScalePos 3 margin.top (300 - margin.bottom) 0)
    ∧ pointScalePos 3 margin.top (300 - margin.bottom) 0 <
        pointScalePos 3 margin.top (300 - margin.bottom) 1 := by
  have h := yScale_evenSpacing ["A", "B", "C"] 300 (by decide) (by norm_num [margin])
  exact ⟨h.1 [] [] 0 (by norm_num), h.2.1 0 1 (by norm_num) (by norm_num)⟩

theorem jsSplitWsAux_ne_nil : ∀ (l cur : List Char) (b : Bool),
    jsSplitWsAux l cur b ≠ [] := by
  intro l
  induction l with
  | nil => intro cur b; simp [jsSplitWsAux]
  | cons c rest ih =>
    intro cur b
    by_cases hc : c.isWhitespace
    · cases b with
      | true => simpa [jsSplitWsAux, hc] using ih [] true
      | false => simp [jsSplitWsAux, hc]
    · simpa [jsSplitWsAux, hc] using ih (c :: cur) false

theorem jsSplitWsAux_noWs : ∀ (l cur : List Char) (b : Bool),
    (∀ c ∈ cur, ¬c.isWhitespace) →
    ∀ t ∈ jsSplitWsAux l cur b, ∀ c ∈ t.data, ¬c.isWhitespace := by
  intro l
  induction l with
  | nil =>
    intro cur b hcur t ht c hc
    simp only [jsSplitWsAux, List.mem_singleton] at ht
    subst ht
    exact hcur c (List.mem_reverse.mp hc)
  | cons c0 rest ih =>
    intro cur b hcur t ht
    by_cases hc : c0.isWhitespace
    · cases b with
      | true =>
        simp only [jsSplitWsAux, hc, if_true, if_pos] at ht
        exact ih [] true (by simp) t ht
      | false =>
        simp only [jsSplitWsAux, hc, if_true] at ht
        rcases List.mem_cons.mp ht with rfl | ht'
        · intro c hcm
          exact hcur c (List.mem_reverse.mp hcm)
        · exact ih [] true (by simp) t ht'
    · simp only [jsSplitWsAux, hc, if_false] at ht
      refine ih (c0 :: cur) false ?_ t ht
      intro x hx
      rcases List.mem_cons.mp hx with rfl | hx'
      · exact hc
      · exact hcur x hx'

theorem jsSplitWsAux_dropLast_ne : ∀ (l cur : List Char) (b : Bool),
    (cur ≠ [] ∨ b = true) →
    ∀ t ∈ (jsSplitWsAux l cur b).dropLast, t ≠ "" := by
  intro l
  induction l with
  | nil => intro cur b _ t ht; simp [jsSplitWsAux] at ht
  | cons c0 rest ih =>
    intro cur b hcb t ht
    by_cases hc : c0.isWhitespace
    · cases b with
      | true =>
        simp only [jsSplitWsAux, hc, if_true, if_pos] at ht
        exact ih [] true (Or.inr rfl) t ht
      | false =>
        have hcur : cur ≠ [] := by
          rcases hcb with h | h
          · exact h
          · cases h
        have heq : jsSplitWsAux (c0 :: rest) cur false =
            String.mk cur.reverse :: jsSplitWsAux rest [] true := by
          simp [jsSplitWsAux, hc]
        rw [heq, List.dropLast_cons_of_ne_nil (jsSplitWsAux_ne_nil rest [] true)] at ht
        rcases List.mem_cons.mp ht with rfl | ht'
        · intro hcontra
          have hrev : cur.reverse = ([] : List Char) := congrArg String.data hcontra
          exact hcur (List.reverse_eq_nil_iff.mp hrev)
        · exact ih [] true (Or.inr rfl) t ht'
    · simp only [jsSplitWsAux, hc, if_false] at ht
      exact ih (c0 :: cur) false (Or.inl (by simp)) t ht

theorem jsSplitWs_dropLast_ne (text : String)
    (hlead : ∀ c, text.data.head? = some c → ¬c.isWhitespace) :
    ∀ t ∈ (jsSplitWs text).dropLast, t ≠ "" := by
  unfold jsSplitWs
  cases htext : text.data with
  | nil => simp [jsSplitWsAux]
  | cons c rest =>
    have hc : ¬c.isWhitespace := hlead c (by rw [htext]; rfl)
    intro t ht
    simp only [jsSplitWsAux, hc, if_false] at ht
    exact jsSplitWsAux_dropLast_ne rest [c] false (Or.inl (by simp)) t ht

theorem takeWhile_eq_filter_of_dropLast_ne :
    ∀ toks : List String, (∀ t ∈ toks.dropLast, t ≠ "") →
    toks.takeWhile (fun w => w ≠ "") = toks.filter (fun w => w ≠ "") := by
  intro toks
  induction toks with
  | nil => intro _; rfl
  | cons x xs ih =>
    intro h
    cases xs with
    | nil =>
      by_cases hx : x = ""
      · subst hx; rfl
      · simp [List.takeWhile_cons, List.filter_cons, hx]
    | cons y ys =>
      have hx : x ≠ "" := by
        apply h
        rw [List.dropLast_cons_of_ne_nil (by simp)]
        simp
      have hrest : ∀ t ∈ (y :: ys).dropLast, t ≠ "" := by
        intro t ht
        apply h
        rw [List.dropLast_cons_of_ne_nil (by simp)]
        exact List.mem_cons_of_mem _ ht
      rw [List.takeWhile_cons, List.filter_cons]
      have hxb : (decide (x ≠ "")) = true := by simpa using hx
      rw [hxb]
      simp only [if_true]
      exact congrArg (fun l => x :: l) (ih hrest)

theorem wrapWordsOf_eq_realWords (text : String)
    (hlead : ∀ c, text.data.head? = some c → ¬c.isWhitespace) :
    wrapWordsOf text = realWords text :=
  takeWhile_eq_filter_of_dropLast_ne (jsSplitWs text) (jsSplitWs_dropLast_ne text hlead)

theorem wrapWordsOf_good (text : String) :
    ∀ w ∈ wrapWordsOf text, w ≠ "" ∧ ∀ c ∈ w.data, ¬c.isWhitespace := by
  intro w hw
  constructor
  · have := List.mem_takeWhile_imp hw
    simpa using this
  · have hmem : w ∈ jsSplitWs text := (List.takeWhile_sublist _).subset hw
    exact jsSplitWsAux_noWs text.data [] false (by simp) w hmem

theorem jsSplitWsAux_word_chunk : ∀ (cs : List Char), (∀ c ∈ cs, ¬c.isWhitespace) →
    ∀ (rest cur : List Char),
    jsSplitWsAux (cs ++ rest) cur false = jsSplitWsAux rest (cs.reverse ++ cur) false := by
  intro cs
  induction cs with
  | nil => intro _ rest cur; simp
  | cons c cs ih =>
    intro h rest cur
    have hc : ¬c.isWhitespace := h c (by simp)
    have hcs : ∀ x ∈ cs, ¬x.isWhitespace := fun x hx => h x (List.mem_cons_of_mem _ hx)
    show jsSplitWsAux (c :: (cs ++ rest)) cur false = _
    have heq : jsSplitWsAux (c :: (cs ++ rest)) cur false =
        jsSplitWsAux (cs ++ rest) (c :: cur) false := by
      simp [jsSplitWsAux, hc]
    rw [heq, ih hcs rest (c :: cur)]
    congr 1
    simp

theorem jsSplitWsAux_space_step (c : Char) (hc : c.isWhitespace) (rest cur : List Char) :
    jsSplitWsAux (c :: rest) cur false =
      String.mk cur.reverse :: jsSplitWsAux rest [] true := by
  simp [jsSplitWsAux, hc]

theorem jsSplitWsAux_true_eq_false (cs : List Char)
    (h : ∀ c, cs.head? = some c → ¬c.isWhitespace) :
    jsSplitWsAux cs [] true = jsSplitWsAux cs [] false := by
  cases cs with
  | nil => rfl
  | cons c rest =>
    have hc : ¬c.isWhitespace := h c rfl
    simp [jsSplitWsAux, hc]

theorem joinSp_cons_data (v : String) (l : List String) :
    ∃ tcs : List Char, (joinSp (v :: l)).data = v.data ++ tcs := by
  cases l with
  | nil => exact ⟨[], by simp [joinSp]⟩
  | cons u l' =>
    refine ⟨(" " ++ joinSp (u :: l')).data, ?_⟩
    show (v ++ " " ++ joinSp (u :: l')).data = _
    simp [String.data_append]

theorem jsSplitWs_joinSp : ∀ l : List String,
    (∀ w ∈ l, w.data ≠ [] ∧ ∀ c ∈ w.data, ¬c.isWhitespace) →
    jsSplitWs (joinSp l) = if l = [] then [""] else l := by
  intro l
  induction l with
  | nil =>
    intro _
    rfl
  | cons w l' ih =>
    intro h
    have hw := h w (by simp)
    rw [if_neg (by simp)]
    cases l' with
    | nil =>
      show jsSplitWsAux w.data [] false = [w]
      rw [show w.data = w.data ++ ([] : List Char) by simp,
        jsSplitWsAux_word_chunk w.data hw.2 [] []]
      simp [jsSplitWsAux]
    | cons v l'' =>
      have hv := h v (by simp)
      show jsSplitWsAux (joinSp (w :: v :: l'')).data [] false = w :: v :: l''
      have hdata : (joinSp (w :: v :: l'')).data =
          w.data ++ (' ' :: (joinSp (v :: l'')).data) := by
        show (w ++ " " ++ joinSp (v :: l'')).data = _
        simp [String.data_append]
      rw [hdata, jsSplitWsAux_word_chunk w.data hw.2 _ [],
        jsSplitWsAux_space_step ' ' (by decide) _ _]
      have hhead : ∀ c, (joinSp (v :: l'')).data.head? = some c → ¬c.isWhitespace := by
        obtain ⟨tcs, htcs⟩ := joinSp_cons_data v l''
        intro c hcHead
        rw [htcs] at hcHead
        have hvd : v.data ≠ [] := hv.1
        cases hvd' : v.data with
        | nil => exact absurd hvd' hvd
        | cons c0 cs0 =>
          rw [hvd'] at hcHead
          simp only [List.cons_append, List.head?_cons, Option.some.injEq] at hcHead
          subst hcHead
          exact hv.2 c0 (by rw [hvd']; simp)
      rw [jsSplitWsAux_true_eq_false _ hhead]
      have hrest : jsSplitWsAux (joinSp (v :: l'')).data [] false = v :: l'' := by
        have := ih (fun x hx => h x (List.mem_cons_of_mem _ hx))
        rw [if_neg (by simp)] at this
        exact this
      rw [hrest]
      congr 1
      simp

theorem realWords_joinSp (l : List String)
    (h : ∀ w ∈ l, w ≠ "" ∧ ∀ c ∈ w.data, ¬c.isWhitespace) :
    realWords (joinSp l) = l := by
  cases hl : l with
  | nil => rfl
  | cons w l' =>
    have hgood : ∀ w ∈ l, w.data ≠ [] ∧ ∀ c ∈ w.data, ¬c.isWhitespace := by
      intro x hx
      refine ⟨?_, (h x hx).2⟩
      intro hd
      exact (h x hx).1 (String.ext hd)
    rw [← hl]
    unfold realWords
    rw [jsSplitWs_joinSp l (hgood), if_neg (by rw [hl]; simp)]
    apply List.filter_eq_self.mpr
    intro a ha
    simpa using (h a ha).1

theorem wrapStep_flatten (measure : String → ℚ) (maxWidth : ℚ) :
    ∀ (ws : List String) (com : List (List String)) (line : List String),
    ((ws.foldl (wrapStep measure maxWidth) (com, line)).1).flatten ++
      (ws.foldl (wrapStep measure maxWidth) (com, line)).2 =
      com.flatten ++ line ++ ws := by
  intro ws
  induction ws with
  | nil => intro com line; simp
  | cons w ws ih =>
    intro com line
    rw [List.foldl_cons]
    by_cases hov : maxWidth < measure (joinSp (line ++ [w]))
    · rw [show wrapStep measure maxWidth (com, line) w = (com ++ [line], [w]) by
        simp [wrapStep, hov]]
      rw [ih]
      simp
    · rw [show wrapStep measure maxWidth (com, line) w = (com, line ++ [w]) by
        simp [wrapStep, hov]]
      rw [ih]
      simp

theorem wrapLines_flatten (measure : String → ℚ) (maxWidth : ℚ) (ws : List String) :
    (wrapLines measure maxWidth ws).flatten = ws := by
  simp only [wrapLines, List.flatten_append]
  have h := wrapStep_flatten measure maxWidth ws [] []
  simpa using h

theorem wrapStep_committed (measure : String → ℚ) (maxWidth : ℚ) :
    ∀ (ws : List String) (com : List (List String)) (line : List String),
    (∀ t ∈ com.tail, t ≠ []) → (line = [] → com = []) →
    (∀ t ∈ ((ws.foldl (wrapStep measure maxWidth) (com, line)).1).tail, t ≠ []) ∧
      ((ws.foldl (wrapStep measure maxWidth) (com, line)).2 = [] →
        (ws.foldl (wrapStep measure maxWidth) (com, line)).1 = []) := by
  intro ws
  induction ws with
  | nil => intro com line h1 h2; exact ⟨h1, h2⟩
  | cons w ws ih =>
    intro com line h1 h2
    rw [List.foldl_cons]
    by_cases hov : maxWidth < measure (joinSp (line ++ [w]))
    · rw [show wrapStep measure maxWidth (com, line) w = (com ++ [line], [w]) by
        simp [wrapStep, hov]]
      apply ih
      · intro t ht
        cases com with
        | nil => simp at ht
        | cons a com0 =>
          rw [show ((a :: com0) ++ [line]).tail = com0 ++ [line] from rfl] at ht
          rcases List.mem_append.mp ht with h | h
          · exact h1 t h
          · rw [List.mem_singleton] at h
            subst h
            intro hl
            exact absurd (h2 hl) (by simp)
      · intro hc
        exact absurd hc (by simp)
    · rw [show wrapStep measure maxWidth (com, line) w = (com, line ++ [w]) by
        simp [wrapStep, hov]]
      apply ih
      · exact h1
      · intro hc
        exact absurd hc (by simp)

theorem wrapStep_fit (measure : String → ℚ) (maxWidth : ℚ) :
    ∀ (ws : List String) (com : List (List String)) (line : List String),
    (∀ l ∈ com, l = [] ∨ (∃ u, l = [u]) ∨ measure (joinSp l) ≤ maxWidth) →
    (line = [] ∨ (∃ u, line = [u]) ∨ measure (joinSp line) ≤ maxWidth) →
    (∀ l ∈ (ws.foldl (wrapStep measure maxWidth) (com, line)).1,
      l = [] ∨ (∃ u, l = [u]) ∨ measure (joinSp l) ≤ maxWidth) ∧
    ((ws.foldl (wrapStep measure maxWidth) (com, line)).2 = [] ∨
      (∃ u, (ws.foldl (wrapStep measure maxWidth) (com, line)).2 = [u]) ∨
      measure (joinSp (ws.foldl (wrapStep measure maxWidth) (com, line)).2) ≤ maxWidth) := by
  intro ws
  induction ws with
  | nil => intro com line h1 h2; exact ⟨h1, h2⟩
  | cons w ws ih =>
    intro com line h1 h2
    rw [List.foldl_cons]
    by_cases hov : maxWidth < measure (joinSp (line ++ [w]))
    · rw [show wrapStep measure maxWidth (com, line) w = (com ++ [line], [w]) by
        simp [wrapStep, hov]]
      apply ih
      · intro l hl
        rcases List.mem_append.mp hl with h | h
        · exact h1 l h
        · rw [List.mem_singleton] at h
          subst h
          exact h2
      · exact Or.inr (Or.inl ⟨w, rfl⟩)
    · rw [show wrapStep measure maxWidth (com, line) w = (com, line ++ [w]) by
        simp [wrapStep, hov]]
      apply ih
      · exact h1
      · exact Or.inr (Or.inr (le_of_not_lt hov))

theorem measure_word_le_joinSp (measure : String → ℚ)
    (hmono : ∀ a b : String, measure a ≤ measure (a ++ b) ∧ measure b ≤ measure (a ++ b)) :
    ∀ (l : List String) (w : String), w ∈ l → measure w ≤ measure (joinSp l) := by
  intro l
  induction l with
  | nil => intro w hw; simp at hw
  | cons w0 rest ih =>
    intro w hw
    cases rest with
    | nil =>
      rw [List.mem_singleton] at hw
      subst hw
      exact le_refl _
    | cons v rest' =>
      show measure w ≤ measure (w0 ++ " " ++ joinSp (v :: rest'))
      rcases List.mem_cons.mp hw with rfl | hw'
      · calc measure w ≤ measure (w ++ " ") := (hmono w " ").1
          _ ≤ measure ((w ++ " ") ++ joinSp (v :: rest')) := (hmono (w ++ " ") _).1
      · calc measure w ≤ measure (joinSp (v :: rest')) := ih w hw'
          _ ≤ measure ((w0 ++ " ") ++ joinSp (v :: rest')) := (hmono (w0 ++ " ") _).2

theorem wrapFragments_eq (text : String) (maxWidth : ℚ) (measure : String → ℚ) :
    wrapFragments text maxWidth measure =
      (((wrapWordsOf text).foldl (wrapStep measure maxWidth) ([], [])).1).map joinSp ++
        [joinSp ((wrapWordsOf text).foldl (wrapStep measure maxWidth) ([], [])).2] := by
  simp [wrapFragments, wrapLines]

theorem wrapLines_good (text : String) (maxWidth : ℚ) (measure : String → ℚ) :
    ∀ l ∈ wrapLines measure maxWidth (wrapWordsOf text), ∀ w ∈ l,
      w ≠ "" ∧ ∀ c ∈ w.data, ¬c.isWhitespace := by
  intro l hl w hw
  apply wrapWordsOf_good
  rw [← wrapLines_flatten measure maxWidth (wrapWordsOf text)]
  exact List.mem_flatten_of_mem hl hw

theorem wrapFragments_committed_ne (text : String) (maxWidth : ℚ) (measure : String → ℚ) :
    ∀ f ∈ ((wrapFragments text maxWidth measure).dropLast).tail, f ≠ "" := by
  intro f hf
  rw [wrapFragments_eq, List.dropLast_concat, ← List.map_tail] at hf
  obtain ⟨t, ht, rfl⟩ := List.mem_map.mp hf
  have hcomm := (wrapStep_committed measure maxWidth (wrapWordsOf text) [] []
    (by simp) (fun _ => rfl)).1
  have htne : t ≠ [] := hcomm t ht
  have htin : t ∈ wrapLines measure maxWidth (wrapWordsOf text) := by
    simp only [wrapLines]
    exact List.mem_append.mpr (Or.inl (List.mem_of_mem_tail ht))
  have hg := wrapLines_good text maxWidth measure t htin
  intro hcontra
  have hrt : realWords (joinSp t) = t := realWords_joinSp t hg
  rw [hcontra] at hrt
  exact htne hrt.symm

/-- C3, amended: for an input text with no leading whitespace and an
extension-monotone measurement function, the wrap loop (1) never discards
content — the whitespace-split words of the output fragments, concatenated in
order, equal the whitespace-split words of the input; (2) every committed
line except possibly the first contains at least one word (when the very
first word's own width exceeds the limit, an empty first line is committed
before it); (3) a word whose own measured width exceeds the limit only ever
appears alone on its line; and (4) every such oversize word does get a line
of its own. -/
theorem wrap_amended (text : String) (maxWidth : ℚ) (measure : String → ℚ)
    (hlead : ∀ c, text.data.head? = some c → ¬c.isWhitespace)
    (hmono : ∀ a b : String, measure a ≤ measure (a ++ b) ∧ measure b ≤ measure (a ++ b)) :
    (((wrapFragments text maxWidth measure).map realWords).flatten = realWords text)
    ∧ (∀ f ∈ ((wrapFragments text maxWidth measure).dropLast).tail, f ≠ "")
    ∧ (∀ w ∈ realWords text, maxWidth < measure w →
        ∀ l ∈ wrapLines measure maxWidth (wrapWordsOf text), w ∈ l → l = [w])
    ∧ (∀ w ∈ realWords text, maxWidth < measure w →
        [w] ∈ wrapLines measure maxWidth (wrapWordsOf text)) := by
  have hws := wrapWordsOf_eq_realWords text hlead
  have hflat := wrapLines_flatten measure maxWidth (wrapWordsOf text)
  have hOversize : ∀ w ∈ realWords text, maxWidth < measure w →
      ∀ l ∈ wrapLines measure maxWidth (wrapWordsOf text), w ∈ l → l = [w] := by
    intro w hw hov l hl hwl
    have hfit := wrapStep_fit measure maxWidth (wrapWordsOf text) [] []
      (by simp) (Or.inl rfl)
    have hP : l = [] ∨ (∃ u, l = [u]) ∨ measure (joinSp l) ≤ maxWidth := by
      rcases List.mem_append.mp hl with h | h
      · exact hfit.1 l h
      · rw [List.mem_singleton] at h
        subst h
        exact hfit.2
    rcases hP with rfl | ⟨u, rfl⟩ | hle
    · simp at hwl
    · rw [List.mem_singleton] at hwl
      subst hwl
      rfl
    · have hwle := measure_word_le_joinSp measure hmono l w hwl
      linarith
  refine ⟨?_, wrapFragments_committed_ne text maxWidth measure, hOversize, ?_⟩
  · show (((wrapLines measure maxWidth (wrapWordsOf text)).map joinSp).map realWords).flatten = _
    rw [List.map_map]
    have hid : (wrapLines measure maxWidth (wrapWordsOf text)).map (realWords ∘ joinSp) =
        wrapLines measure maxWidth (wrapWordsOf text) := by
      have hcongr : (wrapLines measure maxWidth (wrapWordsOf text)).map (realWords ∘ joinSp) =
          (wrapLines measure maxWidth (wrapWordsOf text)).map id :=
        List.map_congr_left (fun l hl => realWords_joinSp l (wrapLines_good text maxWidth measure l hl))
      rw [hcongr, List.map_id]
    rw [hid, hflat, hws]
  · intro w hw hov
    have hmem : w ∈ (wrapLines measure maxWidth (wrapWordsOf text)).flatten := by
      rw [hflat, hws]
      exact hw
    obtain ⟨l, hl, hwl⟩ := List.mem_flatten.mp hmem
    have hlw := hOversize w hw hov l hl hwl
    exact hlw ▸ hl

/-- C3, counterexample: wrapping `"ab"` at limit 10 under ten pixels per
character makes the very first word overflow, so the loop commits the current
line while it is still empty: the output is `["", "ab"]`, whose committed
(non-final) fragment `""` contains no word — refuting "the wrap operation
commits the current line only when it already contains at least one word".
(Content preservation also fails on other inputs: a leading-whitespace text
such as `" ab"` splits with an empty first token, which stops the
`while ((word = words.pop()))` loop immediately and discards everything.) -/
theorem wrap_emptyCommit_counterexample :
    wrapFragments "ab" 10 measureLen10 = ["", "ab"]
    ∧ "" ∈ (wrapFragments "ab" 10 measureLen10).dropLast := by
  constructor
  · decide
  · decide

/-- Witness for the amended C3 theorem: content preservation at the concrete
text `"ab cdefgh ij"`, limit 30, ten pixels per character (the middle word is
oversize and lands alone on its own line). -/
theorem wrap_amended_witness :
    ((wrapFragments "ab cdefgh ij" 30 measureLen10).map realWords).flatten =
      realWords "ab cdefgh ij" := by
  have hlead : ∀ c, ("ab cdefgh ij" : String).data.head? = some c → ¬c.isWhitespace := by
    intro c hc
    rw [show ("ab cdefgh ij" : String).data.head? = some 'a' from rfl] at hc
    cases hc
    decide
  have hmono : ∀ a b : String, measureLen10 a ≤ measureLen10 (a ++ b)
      ∧ measureLen10 b ≤ measureLen10 (a ++ b) := by
    intro a b
    constructor
    · simp only [measureLen10, String.length_append]
      have hb : (0 : ℚ) ≤ (b.length : ℚ) := by positivity
      push_cast
      linarith
    · simp only [measureLen10, String.length_append]
      have ha : (0 : ℚ) ≤ (a.length : ℚ) := by positivity
      push_cast
      linarith
  exact (wrap_amended "ab cdefgh ij" 30 measureLen10 hlead hmono).1
